import Mathlib

/-!
Shallow embedding of the continuous-time HIV Markov cohort model
(`MarkovModelClasses.py`, `ParameterClasses.py`,
`ct_hiv_model_econ_eval/param_classes.py`) and proofs about its behavior.

Machine floats are modelled by exact rationals; numpy's non-finite values
(produced by true division by zero) are modelled explicitly by `NpVal`.
-/

namespace HivModel

/-- Health states of patients with HIV (`ParameterClasses.HealthStates`).
The misspelling `NATUAL_DEATH` is the source's. -/
inductive HealthStates where
  | CD4_200to500
  | CD4_200
  | AIDS
  | HIV_DEATH
  | NATUAL_DEATH
deriving DecidableEq, Repr

/-- The integer `.value` of each enum member, in declaration order. -/
def HealthStates.value : HealthStates → ℕ
  | .CD4_200to500 => 0
  | .CD4_200 => 1
  | .AIDS => 2
  | .HIV_DEATH => 3
  | .NATUAL_DEATH => 4

/-- The Python `len(HealthStates)`. -/
def numHealthStates : ℕ := 5

/-- Entry `m[i][j]` of a list-of-lists matrix, 0 when out of range
(the source only ever indexes in range under the dimensions used here). -/
def getEntry (m : List (List ℚ)) (i j : ℕ) : ℚ := (m.getD i []).getD j 0

/-- A numpy floating value as produced by `np.array(row)/sum(row)`: either an
ordinary (here: exact rational) number or one of numpy's non-finite values.
Numpy's true division by zero does not raise an exception; it emits a
`RuntimeWarning` and yields `nan` (for `0/0`) or a signed infinity. -/
inductive NpVal where
  | finite (q : ℚ)
  | nan
  | posinf
  | neginf
deriving DecidableEq, Repr

/-- Numpy true division of a non-negative integer count `a` by an integer
row sum `s` (the entries of `TRANS_MATRIX` are non-negative counts):
`0/0` is `nan`, `a/0` with `a > 0` is `+inf`, otherwise the exact quotient. -/
def npDivNat (a s : ℕ) : NpVal :=
  if s = 0 then (if a = 0 then NpVal.nan else NpVal.posinf)
  else NpVal.finite ((a : ℚ) / (s : ℚ))

/-- Addition on numpy values (`nan` propagates, infinities of opposite sign
give `nan`), used only to state row-sum properties. -/
def npAdd : NpVal → NpVal → NpVal
  | .nan, _ => .nan
  | _, .nan => .nan
  | .posinf, .neginf => .nan
  | .neginf, .posinf => .nan
  | .posinf, _ => .posinf
  | _, .posinf => .posinf
  | .neginf, _ => .neginf
  | _, .neginf => .neginf
  | .finite a, .finite b => .finite (a + b)

/-- Sum of a list of numpy values. -/
def npSum (l : List NpVal) : NpVal := l.foldr npAdd (NpVal.finite 0)

/-- Embeds `ParameterClasses.get_prob_matrix` (identical to
`ct_hiv_model_econ_eval.param_classes.get_trans_prob_matrix`): for each row of
the transition-count matrix append `np.array(row)/sum(row)`.  There is no check
on the row sum: a zero-sum row is divided by zero with numpy semantics. -/
def get_prob_matrix (trans_matrix : List (List ℕ)) : List (List NpVal) :=
  trans_matrix.map (fun row => row.map (fun a => npDivNat a row.sum))

/-- Row `s` of the combo matrix built by `ParameterClasses.get_rate_matrix_combo`:
the row starts as `[0]*len(row)` and then `matrix_combo[s][next_s] =
combo_rr * rate_matrix_mono[s][next_s]` for `next_s in range(s+1, len(HealthStates))`. -/
def comboRowOld (rr : ℚ) (s : ℕ) (row : List ℚ) : List ℚ :=
  (List.range row.length).map (fun j =>
    if s + 1 ≤ j ∧ j < numHealthStates then rr * row.getD j 0 else 0)

/-- The rows of the old combo matrix, with `s` the index of the first row. -/
def comboRowsOld (rr : ℚ) : ℕ → List (List ℚ) → List (List ℚ)
  | _, [] => []
  | s, row :: rest => comboRowOld rr s row :: comboRowsOld rr (s + 1) rest

/-- Embeds `ParameterClasses.get_rate_matrix_combo` (lines 102-119): scales every
entry with `s + 1 ≤ next_s < len(HealthStates)` by `combo_rr`, leaving all
other entries at the initial 0.  Note the inner loop runs up to
`len(HealthStates)` inclusive of the background-mortality column. -/
def get_rate_matrix_combo (rate_matrix_mono : List (List ℚ)) (combo_rr : ℚ) :
    List (List ℚ) :=
  comboRowsOld combo_rr 0 rate_matrix_mono

/-- Row `s` of the combo matrix built by
`ct_hiv_model_econ_eval.param_classes.get_trans_rate_matrix_combo`: the row
starts as `[0]*len(row)`, the loop assigns `combo_rr * rate_matrix_mono[s][next_s]`
for `next_s in range(s+1, len(HealthStates)-1)`, and afterwards
`matrix_combo[s][-1] = rate_matrix_mono[s][-1]` overwrites the last entry of
the row with the mono value (also when that last position is on or below the
diagonal). -/
def comboRowNew (rr : ℚ) (s : ℕ) (row : List ℚ) : List ℚ :=
  (List.range row.length).map (fun j =>
    if j = row.length - 1 then row.getD j 0
    else if s + 1 ≤ j ∧ j < numHealthStates - 1 then rr * row.getD j 0
    else 0)

/-- The rows of the new combo matrix, with `s` the index of the first row. -/
def comboRowsNew (rr : ℚ) : ℕ → List (List ℚ) → List (List ℚ)
  | _, [] => []
  | s, row :: rest => comboRowNew rr s row :: comboRowsNew rr (s + 1) rest

/-- Embeds `ct_hiv_model_econ_eval.param_classes.get_trans_rate_matrix_combo`
(lines 95-116). -/
def get_trans_rate_matrix_combo (rate_matrix_mono : List (List ℚ)) (combo_rr : ℚ) :
    List (List ℚ) :=
  comboRowsNew combo_rr 0 rate_matrix_mono

/-- The fields of `ParameterClasses.ParametersFixed` used by the simulation
classes (`MarkovModelClasses.py`).  The rate matrix is consumed only through
the external Gillespie sampler, which is abstracted by response streams. -/
structure Params where
  initialHealthState : HealthStates
  annualTreatmentCost : ℚ
  annualStateCosts : List ℚ
  annualStateUtilities : List ℚ
  discountRate : ℚ
deriving DecidableEq, Repr

/-- Mutable state of `MarkovModelClasses.PatientCostUtilityMonitor`. -/
structure CostUtilityMonitor where
  tLastRecorded : ℚ
  totalDiscountedCost : ℚ
  totalDiscountedUtility : ℚ
deriving DecidableEq, Repr

/-- Instrumentation record of one call to `PatientCostUtilityMonitor.update`:
the accounting interval `[tLastRecorded, time]` and the state whose cost and
utility rates are billed (the `current_state` argument of the call). -/
structure AccountingCall where
  t0 : ℚ
  t1 : ℚ
  state : HealthStates
deriving DecidableEq, Repr

/-- Embeds `PatientCostUtilityMonitor.update` (lines 102-126): bills the interval
`[tLastRecorded, time]` at `current_state`'s annual cost rate plus the annual
treatment cost, and at `current_state`'s annual utility rate, discounted by the
external `SimPy.EconEvalClasses.pv_continuous_payment` (abstracted here as the
function `pv payment t0 t1`, with the parameters' discount rate folded into
`pv`), then advances `tLastRecorded` to `time`.  The `next_state` argument is
unused, as in the source. -/
def costUtilityUpdate (pv : ℚ → ℚ → ℚ → ℚ) (params : Params)
    (m : CostUtilityMonitor) (time : ℚ) (current_state : HealthStates)
    (next_state : HealthStates) : CostUtilityMonitor :=
  let _ := next_state
  let cost := params.annualStateCosts.getD current_state.value 0 +
    params.annualTreatmentCost
  let utility := params.annualStateUtilities.getD current_state.value 0
  { tLastRecorded := time
    totalDiscountedCost := m.totalDiscountedCost + pv cost m.tLastRecorded time
    totalDiscountedUtility :=
      m.totalDiscountedUtility + pv utility m.tLastRecorded time }

/-- Modelled from the spec: `pv_continuous_payment` lives in the external
SimPy package (`SimPy.EconEvalClasses`), not in this repository's sources.
Spec section 4.3: the discounted contribution of a constant payment flow `p`
over `[t0, t1]` at rate `r = 0` is `p * (t1 - t0)` (the `r ≠ 0` case involves
exponentials and is exercised by no claim; nonzero rates are covered by
quantifying over an abstract `pv`).  This is the `r = 0` instance. -/
def pv_zero_rate (payment : ℚ) (t0 t1 : ℚ) : ℚ := payment * (t1 - t0)

/-- State carried through one patient's simulation: the fields of
`MarkovModelClasses.PatientStateMonitor` and its cost/utility monitor, plus an
instrumentation log of the accounting calls made (not a field of the Python
object; it records the calls for the interval-accounting theorems). -/
structure PatientState where
  currentState : HealthStates
  survivalTime : Option ℚ
  timeToAIDS : Option ℚ
  ifDevelopedAIDS : Bool
  monitor : CostUtilityMonitor
  calls : List AccountingCall
deriving DecidableEq, Repr

/-- One call `costUtilityMonitor.update(time, current_state, next_state)`,
with the interval it bills appended to the instrumentation log. -/
def recordCostUtility (pv : ℚ → ℚ → ℚ → ℚ) (params : Params) (st : PatientState)
    (time : ℚ) (current_state next_state : HealthStates) : PatientState :=
  { st with
    monitor := costUtilityUpdate pv params st.monitor time current_state next_state
    calls := st.calls ++ [⟨st.monitor.tLastRecorded, time, current_state⟩] }

/-- Embeds `MarkovModelClasses.PatientStateMonitor.update` (lines 64-86).  Line 72
reads `if new_state == P.HealthStates.HIV_DEATH or P.HealthStates.NATUAL_DEATH:`,
which Python evaluates as `(new_state == HIV_DEATH) or bool(NATUAL_DEATH)`; an
enum member is truthy, so the branch is taken on every call and `survivalTime`
is overwritten with `time` unconditionally. -/
def stateMonitorUpdate (pv : ℚ → ℚ → ℚ → ℚ) (params : Params) (st : PatientState)
    (time : ℚ) (new_state : HealthStates) : PatientState :=
  let st1 : PatientState := { st with survivalTime := some time }
  let st2 : PatientState :=
    if st1.currentState ≠ HealthStates.AIDS ∧ new_state = HealthStates.AIDS then
      { st1 with ifDevelopedAIDS := true, timeToAIDS := some time }
    else st1
  let st3 := recordCostUtility pv params st2 time st2.currentState new_state
  { st3 with currentState := new_state }

/-- One response of the external Gillespie sampler
(`SimPy.MarkovClasses.Gillespie.get_next_state`): either a holding time `dt`
with the sampled next state, or `dt is None`, signalling an absorbing state. -/
inductive GillespieResponse where
  | absorbed
  | event (dt : ℚ) (next : HealthStates)
deriving DecidableEq, Repr

/-- The loop of `MarkovModelClasses.Patient.simulate` (lines 22-50), with the
sampler's successive responses supplied as a list (each patient's sampler is a
deterministic stream of its seed; an empty list models a stream cut off, which
no theorem's run reaches).  `dt is None` stops with no further action; an event
beyond the horizon bills `[tLastRecorded, sim_length]` at the current state and
stops; otherwise time advances and the state monitor is updated. -/
def simulateLoop (pv : ℚ → ℚ → ℚ → ℚ) (params : Params) (sim_length : ℚ) :
    ℚ → PatientState → List GillespieResponse → PatientState
  | _, st, [] => st
  | _, st, .absorbed :: _ => st
  | t, st, .event dt next :: rest =>
    if sim_length < dt + t then
      recordCostUtility pv params st sim_length st.currentState st.currentState
    else
      simulateLoop pv params sim_length (t + dt)
        (stateMonitorUpdate pv params st (t + dt) next) rest

/-- The initial monitor state built by the `PatientStateMonitor` and
`PatientCostUtilityMonitor` constructors. -/
def initialPatientState (params : Params) : PatientState :=
  { currentState := params.initialHealthState
    survivalTime := none
    timeToAIDS := none
    ifDevelopedAIDS := false
    monitor := ⟨0, 0, 0⟩
    calls := [] }

/-- Embeds `MarkovModelClasses.Patient.simulate`: run the loop from time 0 on the
freshly initialized monitors. -/
def patientSimulate (pv : ℚ → ℚ → ℚ → ℚ) (params : Params) (sim_length : ℚ)
    (responses : List GillespieResponse) : PatientState :=
  simulateLoop pv params sim_length 0 (initialPatientState params) responses

/-- Outcome collections built by `MarkovModelClasses.CohortOutcomes`
(summary statistics are delegated to the external `Stat` collaborator and are
not modelled; the survival curve is the function of time). -/
structure CohortOutcomes where
  survivalTimes : List ℚ
  timesToAIDS : List ℚ
  costs : List ℚ
  utilities : List ℚ
  nLivingPatients : ℚ → ℤ

/-- Modelled from the spec: `PrevalencePathBatchUpdate` lives in the external
SimPy package (`SimPy.SamplePathClasses`), not in this repository's sources.
Spec sections 4.5 and 8: starting from `initial_size` alive, apply each
increment at its change time, sorted ascending, ties applying together; the
curve's value at time `t` is therefore the initial size plus the sum of the
increments whose change time is at most `t`. -/
def prevalencePathBatchUpdate (initial_size : ℕ) (times_of_changes : List ℚ)
    (increments : List ℤ) : ℚ → ℤ :=
  fun t =>
    (initial_size : ℤ) +
      (((times_of_changes.zip increments).filter (fun p => p.1 ≤ t)).map
        (fun p => p.2)).sum

/-- Embeds `MarkovModelClasses.CohortOutcomes.extract_outcomes` (lines 180-208):
survival times of the patients whose `survivalTime` is not `None`, AIDS times
of the patients whose flag is set, every patient's discounted cost and
utility, and the survival curve with `initial_size = len(simulated_patients)`,
`times_of_changes = survivalTimes` and `increments = [-1]*len(survivalTimes)`. -/
def extract_outcomes (simulated_patients : List PatientState) : CohortOutcomes :=
  let survival_times := simulated_patients.filterMap (fun p => p.survivalTime)
  { survivalTimes := survival_times
    timesToAIDS := simulated_patients.filterMap
      (fun p => if p.ifDevelopedAIDS then p.timeToAIDS else none)
    costs := simulated_patients.map (fun p => p.monitor.totalDiscountedCost)
    utilities := simulated_patients.map (fun p => p.monitor.totalDiscountedUtility)
    nLivingPatients := prevalencePathBatchUpdate simulated_patients.length
      survival_times (List.replicate survival_times.length (-1)) }

/-- Embeds `MarkovModelClasses.Cohort.simulate` (lines 142-163): patient `i` of the
cohort is created with `id = self.id * self.popSize + i` (line 150), which
seeds its private random stream (`Patient.__init__`, line 16, abstracted by
the family `rngStream` of sampler response streams indexed by seed); every
patient is simulated with the shared parameters to the same horizon and the
outcomes are extracted. -/
def cohortSimulate (pv : ℚ → ℚ → ℚ → ℚ)
    (rngStream : ℕ → List GillespieResponse) (id pop_size : ℕ) (params : Params)
    (sim_length : ℚ) : CohortOutcomes :=
  extract_outcomes ((List.range pop_size).map (fun i =>
    patientSimulate pv params sim_length (rngStream (id * pop_size + i))))

/-- Concrete parameter fixture used by the evaluation theorems: initial state
`CD4_200to500`, annual treatment cost 2, state cost rates `[1, 4, 6, 0, 0]`,
state utility rates `[1, 3, 5, 0, 0]`, discount rate 0. -/
def sampleParams : Params :=
  { initialHealthState := .CD4_200to500
    annualTreatmentCost := 2
    annualStateCosts := [1, 4, 6, 0, 0]
    annualStateUtilities := [1, 3, 5, 0, 0]
    discountRate := 0 }

/-- Claim C1: `PatientStateMonitor.update` sets `survivalTime` on every
transition, not only on transitions into the two death states: the Python
condition `new_state == HIV_DEATH or NATUAL_DEATH` is always truthy, so a
transition into `AIDS` (or `CD4_200`) records a survival time of `time`
even though the patient is alive. -/
theorem survival_time_set_on_nonfatal_update :
    (initialPatientState sampleParams).survivalTime = none ∧
    (stateMonitorUpdate pv_zero_rate sampleParams (initialPatientState sampleParams)
      5 .AIDS).survivalTime = some 5 ∧
    (stateMonitorUpdate pv_zero_rate sampleParams (initialPatientState sampleParams)
      5 .CD4_200).survivalTime = some 5 := by
  decide

/-- Claim C3 (counterexample): a patient absorbed at time 1 with horizon 10
ends the simulation with a single accounting call covering `[0, 1]` and with
`tLastRecorded = 1`, not 10 — no final accounting call covering
`[last_recorded_time, simulation_horizon]` is performed on absorption. -/
theorem absorbed_patient_skips_final_accounting :
    (patientSimulate pv_zero_rate sampleParams 10
      [.event 1 .HIV_DEATH, .absorbed]).calls =
        [⟨0, 1, .CD4_200to500⟩] ∧
    (patientSimulate pv_zero_rate sampleParams 10
      [.event 1 .HIV_DEATH, .absorbed]).monitor.tLastRecorded = 1 ∧
    (patientSimulate pv_zero_rate sampleParams 10
      [.event 1 .HIV_DEATH, .absorbed]).monitor.tLastRecorded ≠ 10 := by
  simp +decide [patientSimulate, simulateLoop, stateMonitorUpdate, recordCostUtility,
    costUtilityUpdate, initialPatientState, pv_zero_rate, sampleParams]

/-- Claim C3 (amended): when the sampler signals an absorbing state (`dt is
None`), `Patient.simulate` stops immediately with the patient state — monitor,
totals and logged accounting intervals — completely unchanged: no final
accounting call is made and the terminal state accrues nothing after entry. -/
theorem absorbed_response_stops_simulation_unchanged
    (pv : ℚ → ℚ → ℚ → ℚ) (params : Params) (L t : ℚ) (st : PatientState)
    (rest : List GillespieResponse) :
    simulateLoop pv params L t st (.absorbed :: rest) = st := rfl

/-- Claim C7: a patient censored at the horizon does get the final accounting
call covering `[last_recorded_time, horizon]` with the current state held
constant, but a censored patient who transitioned earlier does *not* end with
survival time absent: after a non-fatal transition to `CD4_200` at time 2 and
a next event beyond the horizon 10, `survivalTime` is 2 (the always-true death
check of line 72 recorded it).  For a patient who never transitions, survival
time is indeed absent and, at discount rate 0 (`pv_zero_rate`), total
discounted cost and utility equal the annual rate times the horizon. -/
theorem censored_patient_survival_time_and_accounting :
    (patientSimulate pv_zero_rate sampleParams 10
      [.event 2 .CD4_200, .event 100 .AIDS]).calls =
        [⟨0, 2, .CD4_200to500⟩, ⟨2, 10, .CD4_200⟩] ∧
    (patientSimulate pv_zero_rate sampleParams 10
      [.event 2 .CD4_200, .event 100 .AIDS]).survivalTime = some 2 ∧
    (patientSimulate pv_zero_rate sampleParams 10
      [.event 100 .CD4_200]).survivalTime = none ∧
    (patientSimulate pv_zero_rate sampleParams 10
      [.event 100 .CD4_200]).monitor.totalDiscountedCost = (1 + 2) * 10 ∧
    (patientSimulate pv_zero_rate sampleParams 10
      [.event 100 .CD4_200]).monitor.totalDiscountedUtility = 1 * 10 := by
  simp +decide [patientSimulate, simulateLoop, stateMonitorUpdate, recordCostUtility,
    costUtilityUpdate, initialPatientState, pv_zero_rate, sampleParams,
    HealthStates.value]
  norm_num

/-- Claim C2 (counterexample): `ParameterClasses.get_rate_matrix_combo` does
not leave the background-mortality column (index 4) equal to the mono matrix:
with relative risk 2 and a mono matrix whose entry `[0][4]` is 1, the combo
entry `[0][4]` is 2. -/
theorem combo_old_scales_mortality_column :
    getEntry (get_rate_matrix_combo
      [[0, 1, 1, 1, 1], [0, 0, 1, 1, 1], [0, 0, 0, 1, 1],
       [0, 0, 0, 0, 0], [0, 0, 0, 0, 0]] 2) 0 4 = 2 ∧
    getEntry
      [[0, 1, 1, 1, 1], [0, 0, 1, 1, 1], [0, 0, 0, 1, 1],
       [0, 0, 0, 0, 0], [0, 0, 0, 0, 0]] 0 4 = 1 ∧
    getEntry (get_rate_matrix_combo
      [[0, 1, 1, 1, 1], [0, 0, 1, 1, 1], [0, 0, 0, 1, 1],
       [0, 0, 0, 0, 0], [0, 0, 0, 0, 0]] 2) 0 4 ≠
      getEntry
        [[0, 1, 1, 1, 1], [0, 0, 1, 1, 1], [0, 0, 0, 1, 1],
         [0, 0, 0, 0, 0], [0, 0, 0, 0, 0]] 0 4 := by
  norm_num [getEntry, get_rate_matrix_combo, comboRowsOld, comboRowOld,
    numHealthStates, List.range_succ]

/-- Claim C10 (counterexample): `get_trans_rate_matrix_combo` does not zero
every entry with `j ≤ i`: the trailing `matrix_combo[s][-1] =
rate_matrix_mono[s][-1]` assignment copies the last column even on the
diagonal, so for a 5×5 mono matrix with entry `[4][4] = 7` the combo diagonal
entry `[4][4]` is 7, not 0. -/
theorem combo_new_copies_last_diagonal_entry :
    getEntry (get_trans_rate_matrix_combo
      [[0, 0, 0, 0, 0], [0, 0, 0, 0, 0], [0, 0, 0, 0, 0],
       [0, 0, 0, 0, 0], [0, 0, 0, 0, 7]] 2) 4 4 = 7 ∧
    getEntry (get_trans_rate_matrix_combo
      [[0, 0, 0, 0, 0], [0, 0, 0, 0, 0], [0, 0, 0, 0, 0],
       [0, 0, 0, 0, 0], [0, 0, 0, 0, 7]] 2) 4 4 ≠ 0 := by
  norm_num [getEntry, get_trans_rate_matrix_combo, comboRowsNew, comboRowNew,
    numHealthStates, List.range_succ]

/-- Claim C4 (counterexample): `get_prob_matrix` does not abort on a
transition-count matrix containing a zero-sum row; it returns a full matrix in
which the zero-sum row has become a row of numpy `nan` values (division by
zero only emits a `RuntimeWarning` in numpy). -/
theorem prob_matrix_returns_nan_row_on_zero_sum :
    get_prob_matrix [[0, 0], [1, 1]] =
      [[NpVal.nan, NpVal.nan],
       [NpVal.finite (1 / 2), NpVal.finite (1 / 2)]] := by
  norm_num [get_prob_matrix, npDivNat]

/-- Claim C2 (amended): for a 5×5 mono rate matrix whose two terminal rows
vanish outside the background-mortality column (as `get_rate_matrix_mono`
produces), `get_trans_rate_matrix_combo` returns the matrix that equals the
mono matrix exactly in the background-mortality column and in the terminal
rows and scales the non-terminal, non-mortality entries with `j > i` by the
relative risk (all other entries 0); `get_rate_matrix_combo` instead also
scales the background-mortality column (and zeroes the terminal rows'
mortality entries beyond row 3), so the claimed mortality-column equality
fails for it. -/
theorem combo_new_structure (rr m3 m4 : ℚ)
    (a00 a01 a02 a03 a04 a10 a11 a12 a13 a14 a20 a21 a22 a23 a24 : ℚ) :
    get_trans_rate_matrix_combo
        [[a00, a01, a02, a03, a04], [a10, a11, a12, a13, a14],
         [a20, a21, a22, a23, a24], [0, 0, 0, 0, m3], [0, 0, 0, 0, m4]] rr =
      [[0, rr * a01, rr * a02, rr * a03, a04],
       [0, 0, rr * a12, rr * a13, a14],
       [0, 0, 0, rr * a23, a24],
       [0, 0, 0, 0, m3],
       [0, 0, 0, 0, m4]] ∧
    get_rate_matrix_combo
        [[a00, a01, a02, a03, a04], [a10, a11, a12, a13, a14],
         [a20, a21, a22, a23, a24], [0, 0, 0, 0, m3], [0, 0, 0, 0, m4]] rr =
      [[0, rr * a01, rr * a02, rr * a03, rr * a04],
       [0, 0, rr * a12, rr * a13, rr * a14],
       [0, 0, 0, rr * a23, rr * a24],
       [0, 0, 0, 0, rr * m3],
       [0, 0, 0, 0, 0]] :=
  ⟨rfl, rfl⟩

/-- Indexing a mapped `List.range`: the `j`-th entry of `[f 0, ..., f (n-1)]`. -/
lemma getD_range_map (f : ℕ → ℚ) (n j : ℕ) :
    ((List.range n).map f).getD j 0 = if j < n then f j else 0 := by
  rcases lt_or_ge j n with h | h
  · rw [if_pos h, List.getD_eq_getElem?_getD, List.getElem?_map, List.getElem?_range h]
    rfl
  · rw [if_neg (by omega), List.getD_eq_getElem?_getD, List.getElem?_eq_none]
    · rfl
    · simpa using h

/-- Entry `(i, j)` of the rows built by `comboRowsOld` starting at row index `s`. -/
lemma getEntry_comboRowsOld (rr : ℚ) (mono : List (List ℚ)) :
    ∀ (s i j : ℕ),
      getEntry (comboRowsOld rr s mono) i j =
        if s + i + 1 ≤ j ∧ j < numHealthStates ∧ j < (mono.getD i []).length
        then rr * (mono.getD i []).getD j 0 else 0 := by
  induction mono with
  | nil =>
    intro s i j
    simp [comboRowsOld, getEntry]
  | cons row rest ih =>
    intro s i j
    cases i with
    | zero =>
      simp only [comboRowsOld, getEntry, List.getD_cons_zero, comboRowOld]
      rw [getD_range_map]
      split_ifs <;> first | rfl | omega
    | succ i =>
      simp only [comboRowsOld, getEntry, List.getD_cons_succ]
      have h := ih (s + 1) i j
      rw [getEntry] at h
      rw [h]
      have hadd : s + 1 + i = s + (i + 1) := by omega
      rw [hadd]

/-- Entry `(i, j)` of the rows built by `comboRowsNew` starting at row index `s`. -/
lemma getEntry_comboRowsNew (rr : ℚ) (mono : List (List ℚ)) :
    ∀ (s i j : ℕ),
      getEntry (comboRowsNew rr s mono) i j =
        if j < (mono.getD i []).length then
          (if j = (mono.getD i []).length - 1 then (mono.getD i []).getD j 0
           else if s + i + 1 ≤ j ∧ j < numHealthStates - 1 then
             rr * (mono.getD i []).getD j 0
           else 0)
        else 0 := by
  induction mono with
  | nil =>
    intro s i j
    simp [comboRowsNew, getEntry]
  | cons row rest ih =>
    intro s i j
    cases i with
    | zero =>
      simp only [comboRowsNew, getEntry, List.getD_cons_zero, comboRowNew]
      rw [getD_range_map]
    | succ i =>
      simp only [comboRowsNew, getEntry, List.getD_cons_succ]
      have h := ih (s + 1) i j
      rw [getEntry] at h
      rw [h]
      have hadd : s + 1 + i = s + (i + 1) := by omega
      rw [hadd]

/-- Claim C10 (amended): for every input mono matrix and relative risk, every
entry with `j ≤ i` of `get_rate_matrix_combo` is exactly 0; for
`get_trans_rate_matrix_combo` every entry with `j ≤ i` is 0 *except* the entry
in the last column of a row (`j = row_length - 1`), which is copied unchanged
from the mono matrix even on or below the diagonal (for a 5×5 matrix this is
diagonal entry `[4][4]`). -/
theorem combo_lower_triangle (mono : List (List ℚ)) (rr : ℚ) (i j : ℕ)
    (hji : j ≤ i) :
    getEntry (get_rate_matrix_combo mono rr) i j = 0 ∧
    getEntry (get_trans_rate_matrix_combo mono rr) i j =
      (if j = (mono.getD i []).length - 1 then getEntry mono i j else 0) := by
  constructor
  · rw [get_rate_matrix_combo, getEntry_comboRowsOld, if_neg]
    rintro ⟨h, -⟩
    omega
  · rw [get_trans_rate_matrix_combo, getEntry_comboRowsNew]
    by_cases hlen : j < (mono.getD i []).length
    · rw [if_pos hlen]
      by_cases hlast : j = (mono.getD i []).length - 1
      · rw [if_pos hlast, if_pos hlast]
        rfl
      · rw [if_neg hlast, if_neg hlast, if_neg]
        rintro ⟨h, -⟩
        omega
    · rw [if_neg hlen]
      by_cases hlast : j = (mono.getD i []).length - 1
      · rw [if_pos hlast]
        rw [getEntry, List.getD_eq_default _ _ (by omega)]
      · rw [if_neg hlast]

/-- Claim C10 (witness): the amended lower-triangle theorem instantiated at a
concrete 5×5 matrix and entry `(4, 2)`. -/
theorem combo_lower_triangle_witness :
    getEntry (get_rate_matrix_combo
      [[0, 1, 1, 1, 1], [0, 0, 1, 1, 1], [0, 0, 0, 1, 1],
       [9, 0, 0, 0, 0], [0, 8, 0, 0, 7]] 2) 4 2 = 0 ∧
    getEntry (get_trans_rate_matrix_combo
      [[0, 1, 1, 1, 1], [0, 0, 1, 1, 1], [0, 0, 0, 1, 1],
       [9, 0, 0, 0, 0], [0, 8, 0, 0, 7]] 2) 4 2 =
      (if 2 = (([[0, 1, 1, 1, 1], [0, 0, 1, 1, 1], [0, 0, 0, 1, 1],
        [9, 0, 0, 0, 0], [0, 8, 0, 0, 7]] : List (List ℚ)).getD 4 []).length - 1
       then getEntry
         [[0, 1, 1, 1, 1], [0, 0, 1, 1, 1], [0, 0, 0, 1, 1],
          [9, 0, 0, 0, 0], [0, 8, 0, 0, 7]] 4 2 else 0) :=
  combo_lower_triangle
    [[0, 1, 1, 1, 1], [0, 0, 1, 1, 1], [0, 0, 0, 1, 1],
     [9, 0, 0, 0, 0], [0, 8, 0, 0, 7]] 2 4 2 (by omega)

lemma npSum_cons (x : NpVal) (xs : List NpVal) :
    npSum (x :: xs) = npAdd x (npSum xs) := rfl

lemma npSum_map_finite (l : List ℚ) :
    npSum (l.map NpVal.finite) = NpVal.finite l.sum := by
  induction l with
  | nil => rfl
  | cons a t ih => rw [List.map_cons, npSum_cons, ih, List.sum_cons]; rfl

lemma sum_map_div (l : List ℕ) (s : ℚ) :
    (l.map (fun (a : ℕ) => (a : ℚ) / s)).sum = ((l.sum : ℕ) : ℚ) / s := by
  induction l with
  | nil => simp
  | cons a t ih =>
    rw [List.map_cons, List.sum_cons, ih, List.sum_cons]
    push_cast
    rw [div_add_div_same]

/-- Claim C6: on a transition-count matrix in which every row has a strictly
positive sum, `get_prob_matrix` returns the matrix whose rows are the input
rows divided entrywise by their row sums, and every returned row sums to
exactly 1. -/
theorem prob_matrix_rows_stochastic (m : List (List ℕ))
    (h : ∀ row ∈ m, 0 < row.sum) :
    get_prob_matrix m =
      m.map (fun row => row.map (fun (a : ℕ) => NpVal.finite ((a : ℚ) / (row.sum : ℚ)))) ∧
    ∀ prow ∈ get_prob_matrix m, npSum prow = NpVal.finite 1 := by
  have hdiv : ∀ row ∈ m, row.map (fun a => npDivNat a row.sum) =
      row.map (fun (a : ℕ) => NpVal.finite ((a : ℚ) / (row.sum : ℚ))) := by
    intro row hr
    have hs : row.sum ≠ 0 := (h row hr).ne'
    simp [npDivNat, hs]
  constructor
  · exact List.map_congr_left hdiv
  · intro prow hp
    rcases List.mem_map.mp hp with ⟨row, hr, rfl⟩
    rw [hdiv row hr]
    have hmm : row.map (fun (a : ℕ) => NpVal.finite ((a : ℚ) / (row.sum : ℚ))) =
        (row.map (fun (a : ℕ) => (a : ℚ) / (row.sum : ℚ))).map NpVal.finite := by
      rw [List.map_map]
      rfl
    rw [hmm, npSum_map_finite, sum_map_div]
    have hs : ((row.sum : ℕ) : ℚ) ≠ 0 := by
      exact_mod_cast (h row hr).ne'
    rw [div_self hs]

/-- Claim C6 (witness): the row-stochasticity theorem instantiated at the
concrete count matrix `[[1, 3], [2, 2]]`. -/
theorem prob_matrix_rows_stochastic_witness :
    get_prob_matrix [[1, 3], [2, 2]] =
      ([[1, 3], [2, 2]] : List (List ℕ)).map
        (fun row => row.map (fun (a : ℕ) => NpVal.finite ((a : ℚ) / (row.sum : ℚ)))) :=
  (prob_matrix_rows_stochastic [[1, 3], [2, 2]] (by decide)).1

/-- Claim C4 (amended): on a count matrix containing a zero-sum row,
`get_prob_matrix` does not abort: it returns a matrix with one row per input
row, containing the image of the zero-sum row, whose entries are all numpy
`nan` (every count in a zero-sum row of non-negative counts is 0, and numpy's
`0/0` is `nan` plus a `RuntimeWarning`).  The configuration error is therefore
silent at matrix-build time. -/
theorem prob_matrix_silently_returns_nan_row (m : List (List ℕ)) (row : List ℕ)
    (hrow : row ∈ m) (hz : row.sum = 0) :
    (get_prob_matrix m).length = m.length ∧
    row.map (fun a => npDivNat a row.sum) ∈ get_prob_matrix m ∧
    ∀ v ∈ row.map (fun a => npDivNat a row.sum), v = NpVal.nan := by
  refine ⟨by simp [get_prob_matrix], List.mem_map_of_mem _ hrow, ?_⟩
  intro v hv
  rcases List.mem_map.mp hv with ⟨a, ha, rfl⟩
  have ha0 : a = 0 := by
    have hall := List.sum_eq_zero_iff.mp hz
    exact hall a ha
  simp [npDivNat, hz, ha0]

/-- Claim C4 (witness): the no-abort theorem instantiated at the concrete
count matrix `[[0, 0], [1, 1]]` with its zero-sum first row. -/
theorem prob_matrix_silently_returns_nan_row_witness :
    (get_prob_matrix [[0, 0], [1, 1]]).length = ([[0, 0], [1, 1]] : List (List ℕ)).length :=
  (prob_matrix_silently_returns_nan_row [[0, 0], [1, 1]] [0, 0] (by decide) (by decide)).1

/-- Checks that a list of accounting calls is consecutive from the given
start time: each call's interval begins at the previous call's end (the first
at the start time) and does not run backwards. -/
def callsChain : ℚ → List AccountingCall → Bool
  | _, [] => true
  | t, c :: cs => decide (c.t0 = t) && decide (c.t0 ≤ c.t1) && callsChain c.t1 cs

/-- Every state-monitor update logs exactly one accounting call, billing
`[tLastRecorded, time]` at the pre-transition state. -/
lemma stateMonitorUpdate_calls (pv : ℚ → ℚ → ℚ → ℚ) (params : Params)
    (st : PatientState) (time : ℚ) (new_state : HealthStates) :
    (stateMonitorUpdate pv params st time new_state).calls =
      st.calls ++ [⟨st.monitor.tLastRecorded, time, st.currentState⟩] := by
  dsimp only [stateMonitorUpdate, recordCostUtility]
  split <;> rfl

/-- Every state-monitor update advances `tLastRecorded` to the update time. -/
lemma stateMonitorUpdate_tLastRecorded (pv : ℚ → ℚ → ℚ → ℚ) (params : Params)
    (st : PatientState) (time : ℚ) (new_state : HealthStates) :
    (stateMonitorUpdate pv params st time new_state).monitor.tLastRecorded = time := by
  dsimp only [stateMonitorUpdate, recordCostUtility, costUtilityUpdate]

/-- The accounting calls appended by the simulation loop form a consecutive
chain starting at the loop's entry time, provided sampled holding times are
non-negative and the entry time is within the horizon. -/
lemma simulateLoop_calls_chain (pv : ℚ → ℚ → ℚ → ℚ) (params : Params) (L : ℚ) :
    ∀ (rs : List GillespieResponse) (t : ℚ) (st : PatientState),
      st.monitor.tLastRecorded = t → t ≤ L →
      (∀ dt next, GillespieResponse.event dt next ∈ rs → 0 ≤ dt) →
      ∃ post, (simulateLoop pv params L t st rs).calls = st.calls ++ post ∧
        callsChain t post = true := by
  intro rs
  induction rs with
  | nil =>
    intro t st hlast hle hdt
    exact ⟨[], by simp [simulateLoop], rfl⟩
  | cons r rest ih =>
    intro t st hlast hle hdt
    cases r with
    | absorbed => exact ⟨[], by simp [simulateLoop], rfl⟩
    | event dt next =>
      by_cases hb : L < dt + t
      · refine ⟨[⟨t, L, st.currentState⟩], ?_, ?_⟩
        · simp only [simulateLoop, if_pos hb, recordCostUtility, hlast]
        · simp [callsChain, hle]
      · have hb' : dt + t ≤ L := not_lt.mp hb
        have hdt0 : 0 ≤ dt := hdt dt next (List.mem_cons_self _ _)
        obtain ⟨post, hcalls, hchain⟩ :=
          ih (t + dt) (stateMonitorUpdate pv params st (t + dt) next)
            (stateMonitorUpdate_tLastRecorded pv params st (t + dt) next)
            (by linarith)
            (fun d n hm => hdt d n (List.mem_cons_of_mem _ hm))
        refine ⟨⟨t, t + dt, st.currentState⟩ :: post, ?_, ?_⟩
        · simp only [simulateLoop, if_neg hb]
          rw [hcalls, stateMonitorUpdate_calls, hlast, List.append_assoc]
          rfl
        · simp [callsChain, hchain]
          linarith

/-- Claim C8 (amended): over a whole patient simulation the accumulator is
only advanced forward in time — the logged accounting calls form a consecutive
chain from time 0 (each call's interval starts at the previous
`tLastRecorded` and ends no earlier), given non-negative sampled holding
times; so no interval is double-counted and no gap is left *within* the
covered range.  The final absorbing-state dwell interval up to the horizon,
however, is skipped when the sampler signals absorption (see the
counterexample). -/
theorem accounting_intervals_consecutive (pv : ℚ → ℚ → ℚ → ℚ) (params : Params)
    (L : ℚ) (responses : List GillespieResponse) (hL : 0 ≤ L)
    (hdt : ∀ dt next, GillespieResponse.event dt next ∈ responses → 0 ≤ dt) :
    callsChain 0 (patientSimulate pv params L responses).calls = true := by
  obtain ⟨post, hcalls, hchain⟩ :=
    simulateLoop_calls_chain pv params L responses 0 (initialPatientState params)
      rfl hL hdt
  rw [patientSimulate, hcalls]
  simpa [initialPatientState] using hchain

/-- Claim C8 (witness): the chain theorem instantiated at a concrete censored
two-event run. -/
theorem accounting_intervals_consecutive_witness :
    callsChain 0 (patientSimulate pv_zero_rate sampleParams 10
      [.event 2 .CD4_200, .event 100 .AIDS]).calls = true :=
  accounting_intervals_consecutive pv_zero_rate sampleParams 10
    [.event 2 .CD4_200, .event 100 .AIDS] (by norm_num)
    (by
      intro dt next h
      simp only [List.mem_cons, List.not_mem_nil, or_false,
        GillespieResponse.event.injEq] at h
      rcases h with ⟨h1, -⟩ | ⟨h1, -⟩ <;> subst h1 <;> norm_num)

/-- Claim C8 (counterexample): a patient entering `HIV_DEATH` at time 5 under
horizon 20 has accounting calls `[0,3]` and `[3,5]` only — the dwell interval
of the terminal state from its entry at 5 to the horizon 20 is never
accounted, so the claim that every state-dwell interval up to the horizon is
accounted exactly once fails. -/
theorem absorbed_run_intervals_stop_short_of_horizon :
    (patientSimulate pv_zero_rate sampleParams 20
      [.event 3 .AIDS, .event 2 .HIV_DEATH, .absorbed]).calls =
        [⟨0, 3, .CD4_200to500⟩, ⟨3, 5, .AIDS⟩] ∧
    (patientSimulate pv_zero_rate sampleParams 20
      [.event 3 .AIDS, .event 2 .HIV_DEATH, .absorbed]).currentState = .HIV_DEATH ∧
    (patientSimulate pv_zero_rate sampleParams 20
      [.event 3 .AIDS, .event 2 .HIV_DEATH, .absorbed]).monitor.tLastRecorded = 5 ∧
    (patientSimulate pv_zero_rate sampleParams 20
      [.event 3 .AIDS, .event 2 .HIV_DEATH, .absorbed]).monitor.tLastRecorded ≠ 20 := by
  simp +decide [patientSimulate, simulateLoop, stateMonitorUpdate, recordCostUtility,
    costUtilityUpdate, initialPatientState, pv_zero_rate, sampleParams]
  norm_num

/-- Claim C5: `Cohort.simulate` gives patient `i` the identifier (and random
seed) `cohort_id * pop_size + i` — the cohort's outcomes are exactly those of
the patients simulated with the streams seeded by `id * pop_size + i` for
`i < pop_size` — and two runs with the same cohort id, population size and
parameters produce outcome collections that are equal element for element
(all inputs of a run, including each patient's random stream, are functions
of these arguments alone). -/
theorem cohort_seed_and_determinism (pv : ℚ → ℚ → ℚ → ℚ)
    (rngStream : ℕ → List GillespieResponse) (id n : ℕ) (params : Params)
    (L : ℚ) (o1 o2 : CohortOutcomes)
    (h1 : o1 = cohortSimulate pv rngStream id n params L)
    (h2 : o2 = cohortSimulate pv rngStream id n params L) :
    (cohortSimulate pv rngStream id n params L =
      extract_outcomes ((List.range n).map (fun i =>
        patientSimulate pv params L (rngStream (id * n + i))))) ∧
    o1.survivalTimes = o2.survivalTimes ∧
    o1.timesToAIDS = o2.timesToAIDS ∧
    o1.costs = o2.costs ∧
    o1.utilities = o2.utilities := by
  subst h1
  subst h2
  exact ⟨rfl, rfl, rfl, rfl, rfl⟩

/-- Claim C5 (witness): the seed/determinism theorem instantiated at cohort
id 3, population 2. -/
theorem cohort_seed_and_determinism_witness :
    (cohortSimulate pv_zero_rate (fun _ => [.absorbed]) 3 2 sampleParams 10 =
      extract_outcomes ((List.range 2).map (fun i =>
        patientSimulate pv_zero_rate sampleParams 10
          ((fun _ => [GillespieResponse.absorbed]) (3 * 2 + i))))) ∧
    (cohortSimulate pv_zero_rate (fun _ => [.absorbed]) 3 2 sampleParams 10).survivalTimes =
      (cohortSimulate pv_zero_rate (fun _ => [.absorbed]) 3 2 sampleParams 10).survivalTimes ∧
    (cohortSimulate pv_zero_rate (fun _ => [.absorbed]) 3 2 sampleParams 10).timesToAIDS =
      (cohortSimulate pv_zero_rate (fun _ => [.absorbed]) 3 2 sampleParams 10).timesToAIDS ∧
    (cohortSimulate pv_zero_rate (fun _ => [.absorbed]) 3 2 sampleParams 10).costs =
      (cohortSimulate pv_zero_rate (fun _ => [.absorbed]) 3 2 sampleParams 10).costs ∧
    (cohortSimulate pv_zero_rate (fun _ => [.absorbed]) 3 2 sampleParams 10).utilities =
      (cohortSimulate pv_zero_rate (fun _ => [.absorbed]) 3 2 sampleParams 10).utilities :=
  cohort_seed_and_determinism pv_zero_rate (fun _ => [.absorbed]) 3 2 sampleParams 10
    (cohortSimulate pv_zero_rate (fun _ => [.absorbed]) 3 2 sampleParams 10)
    (cohortSimulate pv_zero_rate (fun _ => [.absorbed]) 3 2 sampleParams 10) rfl rfl

/-- Summing the `-1` increments applied no later than `t` counts the change
times that are at most `t`. -/
lemma sum_filter_zip_replicate (times : List ℚ) (t : ℚ) :
    (((times.zip (List.replicate times.length (-1 : ℤ))).filter
      (fun p => p.1 ≤ t)).map (fun p => p.2)).sum =
      -(times.countP (fun s => decide (s ≤ t)) : ℤ) := by
  induction times with
  | nil => simp
  | cons a ts ih =>
    simp only [List.length_cons, List.replicate_succ, List.zip_cons_cons,
      List.filter_cons, List.countP_cons]
    by_cases h : a ≤ t
    · simp [h, ih]
    · simp [h, ih]

/-- Claim C9: the survival curve built by `extract_outcomes` for patients
with positive recorded survival times starts at `pop_size` at time 0, is
non-increasing, equals `pop_size` minus the number of recorded survival times
that have occurred by `t` (so ties decrement together, by 1 each), and its
final value — once all recorded times have passed — is `pop_size` minus the
number of recorded survival times. -/
theorem survival_curve_step_function (patients : List PatientState)
    (hpos : ∀ s ∈ (extract_outcomes patients).survivalTimes, (0 : ℚ) < s) :
    (extract_outcomes patients).nLivingPatients 0 = (patients.length : ℤ) ∧
    (∀ a b : ℚ, a ≤ b →
      (extract_outcomes patients).nLivingPatients b ≤
        (extract_outcomes patients).nLivingPatients a) ∧
    (∀ t : ℚ, (extract_outcomes patients).nLivingPatients t =
      (patients.length : ℤ) -
        ((extract_outcomes patients).survivalTimes.countP (fun s => s ≤ t) : ℤ)) ∧
    (∀ t : ℚ, (∀ s ∈ (extract_outcomes patients).survivalTimes, s ≤ t) →
      (extract_outcomes patients).nLivingPatients t =
        (patients.length : ℤ) -
          ((extract_outcomes patients).survivalTimes.length : ℤ)) := by
  have key : ∀ t : ℚ, (extract_outcomes patients).nLivingPatients t =
      (patients.length : ℤ) -
        ((extract_outcomes patients).survivalTimes.countP (fun s => s ≤ t) : ℤ) := by
    intro t
    dsimp only [extract_outcomes, prevalencePathBatchUpdate]
    rw [sum_filter_zip_replicate]
    ring
  refine ⟨?_, ?_, key, ?_⟩
  · rw [key 0]
    have hz : (extract_outcomes patients).survivalTimes.countP (fun s => s ≤ (0 : ℚ)) = 0 := by
      rw [List.countP_eq_zero]
      intro s hs
      simpa using not_le.mpr (hpos s hs)
    rw [hz]
    ring
  · intro a b hab
    rw [key a, key b]
    have hmono : (extract_outcomes patients).survivalTimes.countP (fun s => s ≤ a) ≤
        (extract_outcomes patients).survivalTimes.countP (fun s => s ≤ b) := by
      apply List.countP_mono_left
      intro s hs h
      simpa using le_trans (by simpa using h) hab
    omega
  · intro t ht
    rw [key t]
    have hall : (extract_outcomes patients).survivalTimes.countP (fun s => s ≤ t) =
        (extract_outcomes patients).survivalTimes.length := by
      rw [List.countP_eq_length]
      intro s hs
      simpa using ht s hs
    rw [hall]

/-- Claim C9 (witness): the survival-curve theorem instantiated at three
patients dying at times 2, 2 and 5. -/
theorem survival_curve_step_function_witness :
    (extract_outcomes
      [⟨.HIV_DEATH, some 2, none, false, ⟨0, 0, 0⟩, []⟩,
       ⟨.HIV_DEATH, some 2, none, false, ⟨0, 0, 0⟩, []⟩,
       ⟨.NATUAL_DEATH, some 5, none, false, ⟨0, 0, 0⟩, []⟩]).nLivingPatients 0 =
      (([⟨.HIV_DEATH, some 2, none, false, ⟨0, 0, 0⟩, []⟩,
        ⟨.HIV_DEATH, some 2, none, false, ⟨0, 0, 0⟩, []⟩,
        ⟨.NATUAL_DEATH, some 5, none, false, ⟨0, 0, 0⟩, []⟩] :
          List PatientState).length : ℤ) :=
  (survival_curve_step_function
    [⟨.HIV_DEATH, some 2, none, false, ⟨0, 0, 0⟩, []⟩,
     ⟨.HIV_DEATH, some 2, none, false, ⟨0, 0, 0⟩, []⟩,
     ⟨.NATUAL_DEATH, some 5, none, false, ⟨0, 0, 0⟩, []⟩] (by decide)).1

end HivModel
